import Mathlib

/-!
Shallow embedding, in Lean 4, of the per-frame simulation engine of the
wisp-chase runner (src/components/GameCanvas.tsx), together with proofs of
the spec's testable properties about it.  JS numbers are modelled as exact
rationals; JS integer truncation (the `| 0` / `<<` ToInt32 coercions) is
modelled explicitly where the code relies on it; a JS division that can
produce NaN is modelled as an `Option` returning `none` in the
division-by-zero case.
-/

namespace WispChase

/-- Pickup kinds, from src/types (PickupType enum). -/
inductive PickupType where
  | COIN
  | MULTIPLIER
  | MAGNET
  | BOOST
deriving DecidableEq

/-- GameCanvas.tsx line 29: `const GRAVITY_FORCE = 0.8`. -/
def GRAVITY_FORCE : ℚ := 8 / 10

/-- GameCanvas.tsx line 30: `const INITIAL_SPEED = 8`. -/
def INITIAL_SPEED : ℚ := 8

/-- GameCanvas.tsx line 31: `const MAX_SPEED = 24`. -/
def MAX_SPEED : ℚ := 24

/-- GameCanvas.tsx line 32: `const BOOST_SPEED = 45`. -/
def BOOST_SPEED : ℚ := 45

/-- GameCanvas.tsx line 34: `const SYNC_DISTANCE_THRESHOLD = 60`. -/
def SYNC_DISTANCE_THRESHOLD : ℚ := 60

/-!
## Distance-score channel (GameCanvas.tsx lines 739 and 792-797)

Each tick `distanceScoreRef.current += gameSpeedRef.current * 0.05`; later in
the same tick, if the accumulator is `>= 1` its integer part (doubled under
the MULTIPLIER power-up) is added to the score and the (un-doubled) integer
part is subtracted from the accumulator.
-/

/-- One tick of the distance-score channel. Input: the accumulator before the
tick, the current game speed, and whether the MULTIPLIER power-up is active.
Output: the accumulator after the tick and the score delta contributed by
this channel this tick. -/
def distanceChannelTick (acc speed : ℚ) (multiplier : Bool) : ℚ × ℤ :=
  let acc1 := acc + speed * (5 / 100)
  if 1 ≤ acc1 then
    (acc1 - ⌊acc1⌋, (if multiplier then 2 else 1) * ⌊acc1⌋)
  else
    (acc1, 0)

/-- C1: on every tick the accumulator gains speed × 0.05; afterwards the
accumulator equals the fractional part of (prevAccumulator + speed × 0.05),
hence lies in [0,1), and the distance-channel score delta equals
⌊prevAccumulator + speed × 0.05⌋ scaled by the multiplier. -/
theorem distance_channel_correct (acc speed : ℚ) (m : Bool)
    (hacc : 0 ≤ acc) (hspeed : 0 ≤ speed) :
    (distanceChannelTick acc speed m).1
        = acc + speed * (5 / 100) - ⌊acc + speed * (5 / 100)⌋ ∧
    0 ≤ (distanceChannelTick acc speed m).1 ∧
    (distanceChannelTick acc speed m).1 < 1 ∧
    (distanceChannelTick acc speed m).2
        = (if m then 2 else 1) * ⌊acc + speed * (5 / 100)⌋ := by
  have h0 : (0 : ℚ) ≤ acc + speed * (5 / 100) := by positivity
  unfold distanceChannelTick
  by_cases hc : (1 : ℚ) ≤ acc + speed * (5 / 100)
  · simp only [hc, if_true]
    refine ⟨trivial, ?_, ?_, trivial⟩
    · exact sub_nonneg.mpr (Int.floor_le _)
    · have hlt := Int.lt_floor_add_one (acc + speed * (5 / 100))
      linarith
  · have hfl : ⌊acc + speed * (5 / 100)⌋ = 0 := by
      rw [Int.floor_eq_zero_iff]
      constructor
      · exact h0
      · simpa using lt_of_not_le hc
    simp only [hc, if_false, hfl]
    push_cast
    refine ⟨by ring, h0, lt_of_not_le hc, by simp⟩

/-- Witness for C1 at the spec scenario speed = 8, accumulator = 0:
one tick gains 0.4, stays below 1, contributes no score. -/
theorem distance_channel_correct_witness :
    (distanceChannelTick 0 8 false).1 = 0 + 8 * (5 / 100) - ⌊(0 : ℚ) + 8 * (5 / 100)⌋ ∧
    0 ≤ (distanceChannelTick 0 8 false).1 ∧
    (distanceChannelTick 0 8 false).1 < 1 ∧
    (distanceChannelTick 0 8 false).2 = (if false then 2 else 1) * ⌊(0 : ℚ) + 8 * (5 / 100)⌋ :=
  distance_channel_correct 0 8 false (by norm_num) (by norm_num)

/-!
## Sync/proximity channel (GameCanvas.tsx lines 774-790)

Each tick the vertical distance between the player's center and the wisp's
position is measured.  Below the threshold and not under BOOST, the accrual
bucket gains 1 (2 under MULTIPLIER); otherwise a positive bucket is cashed
out at ×5, a floating text is emitted, and the bucket resets to 0.
-/

/-- One tick of the sync/proximity channel.  Inputs: the active power-up
type, the player's y and height, the wisp's y, and the bucket
(`droneRef.current.accumulatedScore`) before the tick.  Output: the bucket
after the tick, the score delta, and whether a floating text was emitted. -/
def syncChannelTick (powerupType : Option PickupType) (py ph wy : ℚ) (bucket : ℕ) :
    ℕ × ℤ × Bool :=
  if |py + ph / 2 - wy| < SYNC_DISTANCE_THRESHOLD ∧ powerupType ≠ some PickupType.BOOST then
    (bucket + (if powerupType = some PickupType.MULTIPLIER then 2 else 1), 0, false)
  else if 0 < bucket then
    (0, (bucket : ℤ) * 5, true)
  else
    (bucket, 0, false)

/-- C2: in proximity (vertical distance below 60) and not under BOOST the
bucket gains exactly 1 (2 under MULTIPLIER) and no score is paid; on the
first tick out of proximity (or under BOOST) with a positive bucket, the
score increases by exactly bucket × 5, a floating text is emitted, and the
bucket resets to 0; with a zero bucket nothing changes; and the bucket
decreases only by a cash-out that pays bucket × 5. -/
theorem sync_channel_correct (pt : Option PickupType) (py ph wy : ℚ) (b : ℕ) :
    ((|py + ph / 2 - wy| < SYNC_DISTANCE_THRESHOLD ∧ pt ≠ some PickupType.BOOST) →
        syncChannelTick pt py ph wy b
          = (b + (if pt = some PickupType.MULTIPLIER then 2 else 1), 0, false)) ∧
    (¬(|py + ph / 2 - wy| < SYNC_DISTANCE_THRESHOLD ∧ pt ≠ some PickupType.BOOST) →
        0 < b → syncChannelTick pt py ph wy b = (0, (b : ℤ) * 5, true)) ∧
    (¬(|py + ph / 2 - wy| < SYNC_DISTANCE_THRESHOLD ∧ pt ≠ some PickupType.BOOST) →
        b = 0 → syncChannelTick pt py ph wy b = (b, 0, false)) ∧
    ((syncChannelTick pt py ph wy b).1 < b →
        (syncChannelTick pt py ph wy b).2.1 = (b : ℤ) * 5 ∧
        (syncChannelTick pt py ph wy b).1 = 0) := by
  by_cases h1 : |py + ph / 2 - wy| < SYNC_DISTANCE_THRESHOLD ∧ pt ≠ some PickupType.BOOST
  · have he : syncChannelTick pt py ph wy b
        = (b + (if pt = some PickupType.MULTIPLIER then 2 else 1), 0, false) := by
      unfold syncChannelTick
      rw [if_pos h1]
    rw [he]
    refine ⟨fun _ => rfl, fun h => absurd h1 h, fun h => absurd h1 h, ?_⟩
    intro hlt
    exfalso
    by_cases hm : pt = some PickupType.MULTIPLIER <;> simp [hm] at hlt
  · by_cases hb : 0 < b
    · have he : syncChannelTick pt py ph wy b = (0, (b : ℤ) * 5, true) := by
        unfold syncChannelTick
        rw [if_neg h1, if_pos hb]
      rw [he]
      exact ⟨fun h => absurd h h1, fun _ _ => rfl,
        fun _ hb0 => absurd hb (by omega), fun _ => ⟨rfl, rfl⟩⟩
    · have he : syncChannelTick pt py ph wy b = (b, 0, false) := by
        unfold syncChannelTick
        rw [if_neg h1, if_neg hb]
      rw [he]
      exact ⟨fun h => absurd h h1, fun _ hb0 => absurd hb0 hb, fun _ _ => rfl,
        fun hlt => absurd hlt (lt_irrefl b)⟩

/-- Witness for C2 at the spec scenario: player center at y = 300 (top at
284, height 32), wisp at y = 340, no power-up, bucket 7: distance 40 < 60,
so the bucket gains exactly 1. -/
theorem sync_channel_correct_witness :
    syncChannelTick none 284 32 340 7
      = (7 + (if (none : Option PickupType) = some PickupType.MULTIPLIER then 2 else 1),
         0, false) :=
  (sync_channel_correct none 284 32 340 7).1
    (by
      constructor
      · unfold SYNC_DISTANCE_THRESHOLD
        rw [show (284 : ℚ) + 32 / 2 - 340 = -40 by norm_num]
        rw [abs_of_nonpos (by norm_num)]
        norm_num
      · simp)

/-!
## Obstacle pass bonus (GameCanvas.tsx lines 855-862)

In the per-obstacle loop each obstacle first moves left by the current game
speed; then, if it is unpassed and its trailing edge is left of the player's
leading edge, it is marked passed and a one-time +100 bonus is paid.
-/

/-- Obstacle record (src/types): position, width and the `passed` flag.
Height, shape and color play no role in the pass bonus. -/
structure Obstacle where
  x : ℚ
  width : ℚ
  passed : Bool
deriving DecidableEq

/-- One tick of a single obstacle's movement and pass-bonus check, given the
player's x and the current game speed.  Returns the updated obstacle and the
score delta (+100 exactly when the bonus fires). -/
def obstacleStep (px speed : ℚ) (o : Obstacle) : Obstacle × ℤ :=
  if o.passed = false ∧ o.x - speed + o.width < px then
    ({ x := o.x - speed, width := o.width, passed := true }, 100)
  else
    ({ o with x := o.x - speed }, 0)

/-- Number of ticks on which the pass bonus fires for one obstacle, over a
trace of per-tick game speeds, with the player's x fixed (the code never
moves `player.x` during a run). -/
def obstacleFireCount (px : ℚ) (o : Obstacle) : List ℚ → ℕ
  | [] => 0
  | speed :: rest =>
      (if (obstacleStep px speed o).2 = 100 then 1 else 0)
        + obstacleFireCount px (obstacleStep px speed o).1 rest

theorem obstacleStep_of_passed (px speed : ℚ) (o : Obstacle) (hp : o.passed = true) :
    (obstacleStep px speed o).1.passed = true ∧ (obstacleStep px speed o).2 = 0 := by
  unfold obstacleStep
  simp [hp]

theorem obstacleFireCount_of_passed (px : ℚ) :
    ∀ (l : List ℚ) (o : Obstacle), o.passed = true → obstacleFireCount px o l = 0 := by
  intro l
  induction l with
  | nil => intro o _; rfl
  | cons speed rest ih =>
      intro o hp
      obtain ⟨h1, h2⟩ := obstacleStep_of_passed px speed o hp
      unfold obstacleFireCount
      rw [ih _ h1]
      simp [h2]

theorem obstacleFireCount_le_one (px : ℚ) :
    ∀ (l : List ℚ) (o : Obstacle), obstacleFireCount px o l ≤ 1 := by
  intro l
  induction l with
  | nil => intro o; simp [obstacleFireCount]
  | cons speed rest ih =>
      intro o
      unfold obstacleFireCount
      by_cases hfire : (obstacleStep px speed o).2 = 100
      · have hpassed : (obstacleStep px speed o).1.passed = true := by
          unfold obstacleStep at hfire ⊢
          by_cases hc : o.passed = false ∧ o.x - speed + o.width < px
          · simp [hc]
          · simp [hc] at hfire
        rw [obstacleFireCount_of_passed px rest _ hpassed]
        simp [hfire]
      · simpa [hfire] using ih (obstacleStep px speed o).1

/-- C3: the pass flag after a tick is set iff it was already set or the
moved obstacle's trailing edge is left of the player's x; the +100 bonus is
paid exactly on the tick that newly sets the flag; the delta is always 0 or
100; a passed obstacle stays passed and never pays again; and over any trace
of ticks the bonus fires at most once. -/
theorem obstacle_pass_once (px speed : ℚ) (o : Obstacle) :
    ((obstacleStep px speed o).1.passed = true ↔
        (o.passed = true ∨ o.x - speed + o.width < px)) ∧
    ((obstacleStep px speed o).2 = 100 ↔
        (o.passed = false ∧ o.x - speed + o.width < px)) ∧
    ((obstacleStep px speed o).2 = 100 ∨ (obstacleStep px speed o).2 = 0) ∧
    (o.passed = true →
        (obstacleStep px speed o).1.passed = true ∧ (obstacleStep px speed o).2 = 0) ∧
    (∀ l : List ℚ, obstacleFireCount px o l ≤ 1) := by
  refine ⟨?_, ?_, ?_, obstacleStep_of_passed px speed o,
      fun l => obstacleFireCount_le_one px l o⟩
  · unfold obstacleStep
    rcases Bool.eq_false_or_eq_true o.passed with hp | hp <;>
      by_cases hlt : o.x - speed + o.width < px <;>
      simp [hp, hlt]
  · unfold obstacleStep
    rcases Bool.eq_false_or_eq_true o.passed with hp | hp <;>
      by_cases hlt : o.x - speed + o.width < px <;>
      simp [hp, hlt]
  · unfold obstacleStep
    split_ifs <;> simp

/-- Witness for C3 at a concrete input: an already-passed obstacle stays
passed and pays nothing on the next tick. -/
theorem obstacle_pass_once_witness :
    (obstacleStep 120 8 ⟨300, 40, true⟩).1.passed = true ∧
    (obstacleStep 120 8 ⟨300, 40, true⟩).2 = 0 :=
  (obstacle_pass_once 120 8 ⟨300, 40, true⟩).2.2.2.1 rfl

/-!
## Magnet attraction of coin pickups (GameCanvas.tsx lines 830-835)

With MAGNET active and a COIN pickup, the code computes
`dx = p.x - pk.x`, `dy = p.y - pk.y`, `dist = Math.sqrt(dx*dx + dy*dy)` and,
when `dist < 400`, moves the pickup by `(dx / dist) * 15` and
`(dy / dist) * 15`; otherwise the pickup scrolls left by the game speed.
`Math.sqrt` is irrational in general, so it is taken as a parameter
(`sqrtFn`); the only fact about it a theorem may use is stated as a
hypothesis.  A JS division whose divisor is 0 yields NaN (for 0/0) or ±∞,
i.e. a non-finite coordinate: that outcome is modelled as `none`. -/
def magnetCoinStep (sqrtFn : ℚ → ℚ) (px py pkx pky speed : ℚ) : Option (ℚ × ℚ) :=
  if sqrtFn ((px - pkx) * (px - pkx) + (py - pky) * (py - pky)) < 400 then
    if sqrtFn ((px - pkx) * (px - pkx) + (py - pky) * (py - pky)) = 0 then
      none
    else
      some (pkx + (px - pkx) / sqrtFn ((px - pkx) * (px - pkx) + (py - pky) * (py - pky)) * 15,
            pky + (py - pky) / sqrtFn ((px - pkx) * (px - pkx) + (py - pky) * (py - pky)) * 15)
  else
    some (pkx - speed, pky)

/-- C4 evaluation at the failing input: when the displacement vector from
the pickup to the player has zero length, the code takes the `dist < 400`
branch and divides by `dist = Math.sqrt(0) = 0`, so the coordinates become
non-finite (NaN) instead of being left unchanged — there is no guard. -/
theorem magnet_zero_vector_unguarded (sqrtFn : ℚ → ℚ) (px py speed : ℚ)
    (h0 : sqrtFn 0 = 0) :
    magnetCoinStep sqrtFn px py px py speed = none := by
  unfold magnetCoinStep
  rw [show (px - px) * (px - px) + (py - py) * (py - py) = 0 by ring, h0]
  norm_num

/-- Witness for C4's failing-input evaluation at a fully concrete input:
player and coin both at (100, 300), game speed 8. -/
theorem magnet_zero_vector_unguarded_witness :
    magnetCoinStep (fun _ => 0) 100 300 100 300 8 = none :=
  magnet_zero_vector_unguarded (fun _ => 0) 100 300 8 rfl

/-!
## Pickup collection (GameCanvas.tsx lines 838-852 and 917-919)

A pickup is collected when it is not yet collected and the full player box
overlaps it; a COIN increments the session coin counter and emits a "+1"
floating text and a coin sound; any other kind installs the single active
power-up with timer 600 (180 for BOOST) and emits a floating text and a
power-up sound.  The run score is never touched here.
-/

/-- Player record (src/types); only the fields the collision test reads. -/
structure PlayerBox where
  x : ℚ
  y : ℚ
  width : ℚ
  height : ℚ
deriving DecidableEq

/-- GameCanvas.tsx lines 917-919: full-box AABB overlap test. -/
def checkCollision (p : PlayerBox) (ix iy iw ih : ℚ) : Bool :=
  p.x < ix + iw ∧ p.x + p.width > ix ∧ p.y < iy + ih ∧ p.y + p.height > iy

/-- Pickup record (src/types). -/
structure Pickup where
  x : ℚ
  y : ℚ
  width : ℚ
  height : ℚ
  type : PickupType
  collected : Bool
deriving DecidableEq

/-- Active power-up state (`powerupRef.current`). -/
structure PowerupState where
  type : Option PickupType
  timer : ℤ
deriving DecidableEq

/-- Result of one pickup collision check: updated pickup, session coins, run
score, power-up state, whether a floating text was emitted and whether a
sound effect was played. -/
structure PickupStepResult where
  pickup : Pickup
  coins : ℕ
  score : ℤ
  powerup : PowerupState
  textEmitted : Bool
  sfxPlayed : Bool
deriving DecidableEq

/-- One collision-and-dispatch check for a single pickup (GameCanvas.tsx
lines 838-852), after the pickup's movement for the tick. -/
def collectPickupStep (p : PlayerBox) (pk : Pickup) (coins : ℕ) (score : ℤ)
    (pw : PowerupState) : PickupStepResult :=
  if pk.collected = false ∧ checkCollision p pk.x pk.y pk.width pk.height = true then
    if pk.type = PickupType.COIN then
      ⟨{ pk with collected := true }, coins + 1, score, pw, true, true⟩
    else
      ⟨{ pk with collected := true }, coins, score,
        ⟨some pk.type, if pk.type = PickupType.BOOST then 180 else 600⟩, true, true⟩
  else
    ⟨pk, coins, score, pw, false, false⟩

/-- C5: a collision check against an already-collected pickup changes
nothing — no coin increment, no score change, no power-up install, no
floating text, no sound; the collected flag after the check is set iff it
was set before or the overlap test succeeds (so it transitions false→true
at most once and is never reset); and the score is never changed by a
pickup check. -/
theorem pickup_collected_once (p : PlayerBox) (pk : Pickup) (coins : ℕ) (score : ℤ)
    (pw : PowerupState) :
    (pk.collected = true →
        collectPickupStep p pk coins score pw = ⟨pk, coins, score, pw, false, false⟩) ∧
    ((collectPickupStep p pk coins score pw).pickup.collected
        = (pk.collected || checkCollision p pk.x pk.y pk.width pk.height)) ∧
    ((collectPickupStep p pk coins score pw).score = score) := by
  unfold collectPickupStep
  rcases Bool.eq_false_or_eq_true pk.collected with hc | hc <;>
    rcases Bool.eq_false_or_eq_true (checkCollision p pk.x pk.y pk.width pk.height)
      with hk | hk <;>
    by_cases ht : pk.type = PickupType.COIN <;>
    simp [hc, hk, ht]

/-- Witness for C5 at a concrete input: a collision check against an
already-collected coin pickup that overlaps the player has no effect. -/
theorem pickup_collected_once_witness :
    collectPickupStep ⟨100, 50, 32, 32⟩ ⟨110, 60, 30, 30, PickupType.COIN, true⟩ 4 250
        ⟨none, 0⟩
      = ⟨⟨110, 60, 30, 30, PickupType.COIN, true⟩, 4, 250, ⟨none, 0⟩, false, false⟩ :=
  (pickup_collected_once ⟨100, 50, 32, 32⟩ ⟨110, 60, 30, 30, PickupType.COIN, true⟩
      4 250 ⟨none, 0⟩).1 rfl

/-!
## Physics tick (GameCanvas.tsx lines 724-736, no-BOOST branch)

With no BOOST override, vertical velocity gains the player's signed gravity,
is clamped to [-15, 15] (terminal velocity), position integrates the
velocity, and position is clamped to the two screen boundaries; clamping at
either boundary zeroes the velocity and sets the grounded flag, mid-air the
flag is false.
-/

/-- Player physics record (src/types): position, size, vertical velocity,
signed gravity, grounded flag. -/
structure Player where
  x : ℚ
  y : ℚ
  width : ℚ
  height : ℚ
  dy : ℚ
  gravity : ℚ
  isGrounded : Bool
deriving DecidableEq

/-- GameCanvas.tsx lines 729-730: terminal-velocity clamp to [-15, 15]. -/
def clampVel (v : ℚ) : ℚ :=
  if v > 15 then 15 else if v < -15 then -15 else v

/-- One physics tick with no BOOST override (GameCanvas.tsx lines 726-735):
gravity accumulation, terminal-velocity clamp, position integration, and
boundary clamping with grounding. -/
def physicsStep (height : ℚ) (p : Player) : Player :=
  if p.y + clampVel (p.dy + p.gravity) + p.height ≥ height then
    { p with y := height - p.height, dy := 0, isGrounded := true }
  else if p.y + clampVel (p.dy + p.gravity) ≤ 0 then
    { p with y := 0, dy := 0, isGrounded := true }
  else
    { p with y := p.y + clampVel (p.dy + p.gravity),
             dy := clampVel (p.dy + p.gravity), isGrounded := false }

theorem clampVel_bounds (v : ℚ) : -15 ≤ clampVel v ∧ clampVel v ≤ 15 := by
  unfold clampVel
  split_ifs with h1 h2 <;> constructor <;> linarith

/-- C6: after a no-BOOST physics tick, the position lies in
[0, height − playerHeight]; the clamped velocity has magnitude ≤ 15; hitting
the bottom boundary clamps position to height − playerHeight, zeroes the
velocity and grounds the player; hitting the top boundary clamps position to
0, zeroes the velocity and grounds the player; and mid-air the position
integrates the gravity-accumulated clamped velocity and the grounded flag is
false. -/
theorem physics_tick_correct (height : ℚ) (p : Player) (hh : p.height ≤ height) :
    (0 ≤ (physicsStep height p).y ∧ (physicsStep height p).y ≤ height - p.height) ∧
    (-15 ≤ clampVel (p.dy + p.gravity) ∧ clampVel (p.dy + p.gravity) ≤ 15) ∧
    (height ≤ p.y + clampVel (p.dy + p.gravity) + p.height →
        (physicsStep height p).y = height - p.height ∧
        (physicsStep height p).dy = 0 ∧
        (physicsStep height p).isGrounded = true) ∧
    (p.y + clampVel (p.dy + p.gravity) + p.height < height →
        p.y + clampVel (p.dy + p.gravity) ≤ 0 →
        (physicsStep height p).y = 0 ∧
        (physicsStep height p).dy = 0 ∧
        (physicsStep height p).isGrounded = true) ∧
    (p.y + clampVel (p.dy + p.gravity) + p.height < height →
        0 < p.y + clampVel (p.dy + p.gravity) →
        (physicsStep height p).y = p.y + clampVel (p.dy + p.gravity) ∧
        (physicsStep height p).dy = clampVel (p.dy + p.gravity) ∧
        (physicsStep height p).isGrounded = false) := by
  refine ⟨?_, clampVel_bounds _, ?_, ?_, ?_⟩
  · unfold physicsStep
    split_ifs with hbot htop
    · exact ⟨by simp; linarith, by simp⟩
    · exact ⟨by simp, by simp; linarith⟩
    · push_neg at hbot htop
      exact ⟨by simp; linarith, by simp; linarith⟩
  · intro hbot
    unfold physicsStep
    rw [if_pos (by linarith)]
    exact ⟨rfl, rfl, rfl⟩
  · intro hbot htop
    unfold physicsStep
    rw [if_neg (by linarith), if_pos htop]
    exact ⟨rfl, rfl, rfl⟩
  · intro hbot htop
    unfold physicsStep
    rw [if_neg (by linarith), if_neg (by linarith)]
    exact ⟨rfl, rfl, rfl⟩

/-- Witness for C6 at a concrete input: player of height 32 at y = 100 with
dy = 3, gravity 0.8, in a 600-high viewport: mid-air tick, velocity becomes
3.8, position 103.8, not grounded. -/
theorem physics_tick_correct_witness :
    (physicsStep 600 ⟨120, 100, 32, 32, 3, 8 / 10, false⟩).y
        = 100 + clampVel (3 + 8 / 10) ∧
    (physicsStep 600 ⟨120, 100, 32, 32, 3, 8 / 10, false⟩).dy
        = clampVel (3 + 8 / 10) ∧
    (physicsStep 600 ⟨120, 100, 32, 32, 3, 8 / 10, false⟩).isGrounded = false :=
  (physics_tick_correct 600 ⟨120, 100, 32, 32, 3, 8 / 10, false⟩ (by norm_num)).2.2.2.2
    (by unfold clampVel; norm_num) (by unfold clampVel; norm_num)

/-!
## Run termination (GameCanvas.tsx lines 854-873, 887-901 and 903-915)

`handlePlayerHit` returns early while invincible; otherwise it decrements
the lives counter and, at zero or below, runs `gameOver` (finalize score,
add session coins to the inventory, switch to GAME_OVER); only in the
non-fatal branch does it grant the 120-tick invincibility window.  The
per-tick obstacle loop calls it for every obstacle that overlaps the inset
player hitbox while BOOST is inactive and the invincibility counter is 0.
-/

/-- The lives/invincibility state the hit path reads and writes, plus a
counter of how many times the game-over path has executed. -/
structure RunState where
  lives : ℤ
  invincibility : ℕ
  gameOverCount : ℕ
deriving DecidableEq

/-- GameCanvas.tsx lines 887-901: `handlePlayerHit`.  `gameOver()` (lines
903-915) finalizes the score, adds the session coins to the inventory and
switches to GAME_OVER; here its execution is recorded by incrementing
`gameOverCount`.  Note the fatal branch does not touch `invincibility`. -/
def handlePlayerHit (s : RunState) : RunState :=
  if 0 < s.invincibility then s
  else if s.lives - 1 ≤ 0 then
    { s with lives := s.lives - 1, gameOverCount := s.gameOverCount + 1 }
  else
    { s with lives := s.lives - 1, invincibility := 120 }

/-- GameCanvas.tsx lines 865-871 iterated over the obstacle list: for each
obstacle (represented by whether its bounds overlap the inset player
hitbox this tick), if BOOST is inactive and the invincibility counter is 0,
`handlePlayerHit` runs. -/
def processObstacleHits (boost : Bool) (overlaps : List Bool) (s : RunState) : RunState :=
  match overlaps with
  | [] => s
  | hit :: rest =>
      processObstacleHits boost rest
        (if boost = false ∧ s.invincibility = 0 ∧ hit = true then handlePlayerHit s else s)

/-- C7 evaluation at the failing input: with 1 life left, no invincibility
and no BOOST, a tick in which two obstacles overlap the player executes the
game-over path twice (and drives the lives counter to −1), because the fatal
branch of `handlePlayerHit` never raises the invincibility counter that
gates the second call. -/
theorem double_game_over_eval :
    processObstacleHits false [true, true] ⟨1, 0, 0⟩
      = ⟨-1, 0, 2⟩ := by
  decide

/-!
## Palette channel interpolation (GameCanvas.tsx lines 58-64 and 476-481)

`lerpColor` parses the two hex colors into byte channels, blends each
channel as `a + amount * (b - a)` and re-packs with
`((1 << 24) + (rr << 16) + (rg << 8) + rb | 0).toString(16)`.  The `<<` and
`| 0` operators apply JS ToInt32, which truncates each still-fractional
channel toward zero before storing it.  `updateBackground` calls this every
tick with `lerpSpeed = 0.01`, feeding each output back as the next input, so
each stored channel evolves by `c ↦ trunc (c + 0.01 * (t - c))`.
-/

/-- JS ToInt32 on a number that fits in 32 bits: truncation toward zero. -/
def truncToZero (q : ℚ) : ℤ :=
  if 0 ≤ q then ⌊q⌋ else ⌈q⌉

/-- One per-tick update of a single stored color channel `c` toward the
target channel `t` with the code's `lerpSpeed = 0.01`, including the ToInt32
truncation performed by the re-packing in `lerpColor`. -/
def lerpChannelStep (t c : ℤ) : ℤ :=
  truncToZero ((c : ℚ) + (1 / 100) * ((t : ℚ) - (c : ℚ)))

/-- Counterexample to C8 as stated: a channel at 0 with target 50 is a fixed
point of the per-tick blend (0 + 0.01 × 50 = 0.5 truncates back to 0), so
repeated interpolation stays at 0 forever and does not converge to the
target — here even 100000 ticks leave it at 0 while the target is 50. -/
theorem lerp_channel_stall_counterexample :
    (fun c => lerpChannelStep 50 c)^[100000] 0 = 0 ∧ (0 : ℤ) ≠ 50 := by
  constructor
  · refine Function.iterate_fixed ?_ 100000
    unfold lerpChannelStep truncToZero
    norm_num
  · decide

/-- C8 (amended): each per-tick channel step keeps the channel between its
old value and the target (no overshoot on either side) and inside 0–255; a
channel strictly above the target strictly decreases, so iteration converges
to the target from above; a channel equal to the target stays; but — the
amendment — a channel strictly below the target whose gap is at most 99 is
left unchanged by the ToInt32 truncation, so convergence from below fails. -/
theorem lerp_channel_step_props (t c : ℤ)
    (hc0 : 0 ≤ c) (hc255 : c ≤ 255) (ht0 : 0 ≤ t) (ht255 : t ≤ 255) :
    (min c t ≤ lerpChannelStep t c ∧ lerpChannelStep t c ≤ max c t) ∧
    (0 ≤ lerpChannelStep t c ∧ lerpChannelStep t c ≤ 255) ∧
    (t < c → lerpChannelStep t c < c) ∧
    (c < t → t - c ≤ 99 → lerpChannelStep t c = c) ∧
    (c = t → lerpChannelStep t c = c) := by
  have hv0 : (0 : ℚ) ≤ (c : ℚ) + (1 / 100) * ((t : ℚ) - (c : ℚ)) := by
    have hcq : (0 : ℚ) ≤ (c : ℚ) := by exact_mod_cast hc0
    have htq : (0 : ℚ) ≤ (t : ℚ) := by exact_mod_cast ht0
    nlinarith
  have hfl : lerpChannelStep t c = ⌊(c : ℚ) + (1 / 100) * ((t : ℚ) - (c : ℚ))⌋ := by
    unfold lerpChannelStep truncToZero
    rw [if_pos hv0]
  have hrange : min c t ≤ lerpChannelStep t c ∧ lerpChannelStep t c ≤ max c t := by
    rcases lt_trichotomy c t with hlt | heq | hgt
    · have hlow : (c : ℚ) ≤ (c : ℚ) + (1 / 100) * ((t : ℚ) - (c : ℚ)) := by
        have : (0 : ℚ) ≤ (t : ℚ) - (c : ℚ) := by
          have : (c : ℚ) ≤ (t : ℚ) := by exact_mod_cast le_of_lt hlt
          linarith
        nlinarith
      have hhigh : (c : ℚ) + (1 / 100) * ((t : ℚ) - (c : ℚ)) < (t : ℚ) := by
        have : (c : ℚ) < (t : ℚ) := by exact_mod_cast hlt
        nlinarith
      constructor
      · rw [min_eq_left (le_of_lt hlt), hfl]
        exact Int.le_floor.mpr (by exact_mod_cast hlow)
      · rw [max_eq_right (le_of_lt hlt), hfl]
        exact le_of_lt (Int.floor_lt.mpr (by exact_mod_cast hhigh))
    · subst heq
      rw [hfl]
      have : (c : ℚ) + (1 / 100) * ((c : ℚ) - (c : ℚ)) = (c : ℚ) := by ring
      rw [this, Int.floor_intCast]
      simp
    · have hlow : (t : ℚ) ≤ (c : ℚ) + (1 / 100) * ((t : ℚ) - (c : ℚ)) := by
        have : (t : ℚ) < (c : ℚ) := by exact_mod_cast hgt
        nlinarith
      have hhigh : (c : ℚ) + (1 / 100) * ((t : ℚ) - (c : ℚ)) ≤ (c : ℚ) := by
        have : (t : ℚ) < (c : ℚ) := by exact_mod_cast hgt
        nlinarith
      constructor
      · rw [min_eq_right (le_of_lt hgt), hfl]
        exact Int.le_floor.mpr (by exact_mod_cast hlow)
      · rw [max_eq_left (le_of_lt hgt), hfl]
        calc ⌊(c : ℚ) + (1 / 100) * ((t : ℚ) - (c : ℚ))⌋
            ≤ ⌊(c : ℚ)⌋ := Int.floor_le_floor hhigh
          _ = c := Int.floor_intCast c
  refine ⟨hrange, ⟨le_trans (le_min hc0 ht0) hrange.1,
      le_trans hrange.2 (max_le hc255 ht255)⟩, ?_, ?_, ?_⟩
  · intro hgt
    rw [hfl]
    have hhigh : (c : ℚ) + (1 / 100) * ((t : ℚ) - (c : ℚ)) < (c : ℚ) := by
      have : (t : ℚ) < (c : ℚ) := by exact_mod_cast hgt
      nlinarith
    exact Int.floor_lt.mpr (by exact_mod_cast hhigh)
  · intro hlt hgap
    rw [hfl]
    have hlow : (c : ℚ) ≤ (c : ℚ) + (1 / 100) * ((t : ℚ) - (c : ℚ)) := by
      have : (c : ℚ) ≤ (t : ℚ) := by exact_mod_cast le_of_lt hlt
      nlinarith
    have hhigh : (c : ℚ) + (1 / 100) * ((t : ℚ) - (c : ℚ)) < (c : ℚ) + 1 := by
      have : (t : ℚ) - (c : ℚ) ≤ 99 := by exact_mod_cast hgap
      nlinarith
    have h1 : c ≤ ⌊(c : ℚ) + (1 / 100) * ((t : ℚ) - (c : ℚ))⌋ :=
      Int.le_floor.mpr (by exact_mod_cast hlow)
    have h2 : ⌊(c : ℚ) + (1 / 100) * ((t : ℚ) - (c : ℚ))⌋ < c + 1 :=
      Int.floor_lt.mpr (by push_cast; linarith)
    omega
  · intro heq
    subst heq
    rw [hfl]
    have : (c : ℚ) + (1 / 100) * ((c : ℚ) - (c : ℚ)) = (c : ℚ) := by ring
    rw [this, Int.floor_intCast]

/-- Witness for C8's amended theorem at a concrete input: channel 200 with
target 100 steps down strictly (to 199), staying within [100, 200] and
0–255. -/
theorem lerp_channel_step_props_witness :
    lerpChannelStep 100 200 < 200 :=
  (lerp_channel_step_props 100 200 (by norm_num) (by norm_num) (by norm_num)
      (by norm_num)).2.2.1 (by norm_num)

/-!
## Spawner rate limiting (GameCanvas.tsx lines 821-826)

After incrementing the frame counter the code computes
`spawnRate = Math.floor(1000 / (gameSpeed * 1.3))` and, when
`frames % Math.max(20, spawnRate) === 0`, draws one random number: above
0.85 it spawns a pickup, otherwise it draws a second and above 0.2 spawns an
obstacle; else nothing.
-/

/-- The effective inter-spawn frame interval `Math.max(20, spawnRate)`. -/
def spawnInterval (speed : ℚ) : ℤ :=
  max 20 ⌊1000 / (speed * (13 / 10))⌋

/-- One spawn decision for a tick: frame counter (already incremented),
current game speed and the two random draws.  Returns
(pickup spawned, obstacle spawned). -/
def spawnTick (frames : ℕ) (speed r1 r2 : ℚ) : Bool × Bool :=
  if (frames : ℤ) % spawnInterval speed = 0 then
    if r1 > 85 / 100 then (true, false)
    else if r2 > 2 / 10 then (false, true)
    else (false, false)
  else (false, false)

/-- C9: the interval never drops below 20 frames; a spawn can only happen
on a frame divisible by the interval; a qualifying frame creates at most one
entity — never both a pickup and an obstacle; and for positive speeds the
interval is a non-increasing function of speed. -/
theorem spawner_rate_limited (frames : ℕ) (speed r1 r2 : ℚ) :
    (20 ≤ spawnInterval speed) ∧
    ((frames : ℤ) % spawnInterval speed ≠ 0 → spawnTick frames speed r1 r2 = (false, false)) ∧
    (¬((spawnTick frames speed r1 r2).1 = true ∧ (spawnTick frames speed r1 r2).2 = true)) ∧
    (∀ s1 s2 : ℚ, 0 < s1 → s1 ≤ s2 → spawnInterval s2 ≤ spawnInterval s1) := by
  refine ⟨le_max_left _ _, ?_, ?_, ?_⟩
  · intro hne
    unfold spawnTick
    rw [if_neg hne]
  · unfold spawnTick
    split_ifs <;> simp
  · intro s1 s2 hs1 hs12
    unfold spawnInterval
    have hd : (1000 : ℚ) / (s2 * (13 / 10)) ≤ 1000 / (s1 * (13 / 10)) :=
      div_le_div_of_nonneg_left (by norm_num) (by positivity) (by linarith)
    exact max_le_max (le_refl 20) (Int.floor_le_floor hd)

/-- Witness for C9 at a concrete input: frame 7 with interval 96 (speed 8)
is not divisible, so nothing spawns; and the interval at speed 24 is no
larger than at speed 8. -/
theorem spawner_rate_limited_witness :
    spawnTick 7 8 (1 / 2) (1 / 2) = (false, false) ∧
    spawnInterval 24 ≤ spawnInterval 8 :=
  ⟨(spawner_rate_limited 7 8 (1 / 2) (1 / 2)).2.1 (by norm_num [spawnInterval]),
   (spawner_rate_limited 0 8 0 0).2.2.2 8 24 (by norm_num) (by norm_num)⟩

/-!
## Audio engine track selection (GameCanvas.tsx lines 295-306)

`playTrack(track)` returns immediately when the requested track is already
the current one and music is playing; otherwise (and only with an audio
context) it sets the playing flag and track, resets the step counter, moves
`nextNoteTime` just past the audio clock, clears the pending timer and
re-enters the scheduler.
-/

/-- The two playable tracks (the `currentTrack` field also admits a
distinguished stopped value, modelled as `none`). -/
inductive Track where
  | menu
  | game
deriving DecidableEq

/-- AudioEngine scheduling state (GameCanvas.tsx lines 76-89).  The
scheduler itself is a function of the state, taken as a parameter where
needed; `timerID` is the pending rescheduling handle. -/
structure AudioState where
  hasCtx : Bool
  ctxTime : ℚ
  isPlaying : Bool
  currentTrack : Option Track
  step : ℕ
  nextNoteTime : ℚ
  timerID : Option ℕ
deriving DecidableEq

/-- GameCanvas.tsx lines 295-306: `playTrack`.  `sched` is the scheduler
closure (`this.scheduler()`), applied to the mutated state only on the
non-early-return path. -/
def playTrack (sched : AudioState → AudioState) (track : Track) (s : AudioState) :
    AudioState :=
  if s.currentTrack = some track ∧ s.isPlaying = true then s
  else if s.hasCtx = false then s
  else
    sched { s with isPlaying := true, currentTrack := some track, step := 0,
                   nextNoteTime := s.ctxTime + 1 / 10, timerID := none }

/-- C10: requesting the track that is already playing is a no-op — the step
counter, nextNoteTime, the pending timer and the playing flag (the whole
engine state) are unchanged, and the scheduler is not re-entered (the result
does not depend on `sched`). -/
theorem playTrack_redundant_noop (sched : AudioState → AudioState) (t : Track)
    (s : AudioState) (h1 : s.currentTrack = some t) (h2 : s.isPlaying = true) :
    playTrack sched t s = s := by
  unfold playTrack
  rw [if_pos ⟨h1, h2⟩]

/-- Witness for C10 at a concrete input: with the menu track playing, a
redundant menu-track request leaves the state untouched even under a
scheduler that would change every field. -/
theorem playTrack_redundant_noop_witness :
    playTrack (fun _ => ⟨false, 0, false, none, 0, 0, none⟩) Track.menu
        ⟨true, 2, true, some Track.menu, 5, 3, some 7⟩
      = ⟨true, 2, true, some Track.menu, 5, 3, some 7⟩ :=
  playTrack_redundant_noop (fun _ => ⟨false, 0, false, none, 0, 0, none⟩) Track.menu
    ⟨true, 2, true, some Track.menu, 5, 3, some 7⟩ rfl rfl

end WispChase
